import Mathlib

/-!
Verification development for the st_gridnet repository
(source file: src/gridnet_patches.py).

The source is shallowly embedded as follows.

* Tensors are flat row-major lists of rationals together with an explicit
  shape list (`Tensor`).  Rationals stand in for the floating-point values;
  all of the verified properties are about data movement, control flow and
  bookkeeping, none about floating-point rounding.
* The external patch classifier is an arbitrary pure function from a single
  patch to its class-score vector; a batched call of the classifier maps this
  function over the patch list (the collaborator contract: a callable taking
  a batch of patches of shape (n, channels, h, w) and returning (n, n_classes)
  logits, computed itemwise).
* Fallible code returns Option: the assert inside GridNet._ppl, and the
  unbounded while loop of GridNet.patch_predictions, which is given explicit
  fuel (the loop is a while loop in the source; fuel equal to the patch-list
  length is shown to be sufficient whenever atonce_patch_limit is at least 1).
* The training loop state that the claims are about (gradient-accumulation
  schedule, background masking, checkpoint persistence) is embedded as pure
  functions over explicit data; file writes become an explicit event list.
-/

/-- A patch: the flattened pixel values of one grid cell
(channels * h_patch * w_patch rationals). -/
abbrev Patch := List ℚ

/-- A per-patch prediction: n_classes class scores. -/
abbrev Pred := List ℚ

/-- A tensor: a shape together with flat row-major data. -/
structure Tensor where
  shape : List Nat
  data : List ℚ
deriving DecidableEq

/-- A small auxiliary tensor carrying a requires_grad flag, modelling
torch tensors created with an explicit requires_grad argument. -/
structure TrackedTensor where
  data : List ℚ
  requires_grad : Bool
deriving DecidableEq

/-- gridnet_patches.py line 37: self.dummy = torch.ones(1, dtype=torch.float32,
requires_grad=True), registered as buffer dummy_tensor on line 38. -/
def GridNet.dummy_tensor : TrackedTensor :=
  TrackedTensor.mk [1] true

/-- gridnet_patches.py line 34: self.bg = torch.zeros((1, n_classes),
requires_grad=True), registered as buffer bg_const on line 35.  Only its
data row is consumed by foreground_classifier. -/
def GridNet.bg : Nat → TrackedTensor := fun n_classes =>
  TrackedTensor.mk (List.replicate n_classes 0) true

/-- torch.max over all elements of a tensor (the source applies it to a
whole patch on line 60; torch raises on an empty tensor, the claims only
use nonempty patches). -/
def torch_max : List ℚ → ℚ
  | [] => 0
  | v :: vs => vs.foldl max v

/-- gridnet_patches.py lines 59-63: classify a single patch, short-circuiting
to the constant background row when the maximum pixel value equals zero.
The unsqueeze(0)/batching of the single patch is absorbed into the per-patch
classifier function. -/
def GridNet.foreground_classifier (patch_classifier : Patch → Pred)
    (n_classes : Nat) (x : Patch) : Pred :=
  if torch_max x = 0 then (GridNet.bg n_classes).data else patch_classifier x

/-- gridnet_patches.py lines 66-69: helper that asserts the dummy argument is
present and then runs the batched patch classifier on the patch list.  The
assert is modelled by returning none when the dummy argument is missing. -/
def GridNet._ppl (patch_classifier : Patch → Pred) (patch_list : List Patch)
    (dummy_arg : Option TrackedTensor) : Option (List Pred) :=
  if dummy_arg.isSome then some (patch_list.map patch_classifier) else none

/-- torch.utils.checkpoint.checkpoint: on the forward pass it simply runs the
wrapped function on its arguments (the memory bookkeeping has no effect on
the computed value). -/
def cp_checkpoint
    (fn : List Patch → Option TrackedTensor → Option (List Pred))
    (tmp : List Patch) (dummy : Option TrackedTensor) : Option (List Pred) :=
  fn tmp dummy

/-- One recorded invocation of GridNet._ppl inside patch_predictions:
whether it was wrapped in cp.checkpoint, and the dummy argument passed. -/
structure PPLCall where
  checkpointed : Bool
  dummy_arg : Option TrackedTensor
deriving DecidableEq

/-- gridnet_patches.py line 73: torch.reshape(x, (-1,) + patch_shape), viewed
at patch granularity: the flat data is cut into numel / patch_numel
consecutive patches of patch_numel values each (row-major).  len() and
narrow() on the resulting tensor become List.length and drop/take. -/
def toPatchList (patch_numel : Nat) (data : List ℚ) : List Patch :=
  (List.range (data.length / patch_numel)).map
    (fun i => (data.drop (i * patch_numel)).take patch_numel)

/-- torch.reshape(t, (-1,) + s): the inferred leading dimension is
numel / prod s; the flat data is unchanged. -/
def torch_reshape_neg1 (s : List Nat) (t : Tensor) : Tensor :=
  Tensor.mk ((t.data.length / s.prod) :: s) t.data

/-- gridnet_patches.py line 97: x.permute((0, 3, 1, 2)) on a rank-4 tensor
(batch, d1, d2, n_classes) -> (batch, n_classes, d1, d2), with the data
re-indexed accordingly. -/
def torch_permute_0312 (t : Tensor) : Tensor :=
  match t.shape with
  | [b, d1, d2, nc] =>
    Tensor.mk [b, nc, d1, d2]
      ((List.range b).flatMap (fun i => (List.range nc).flatMap (fun j =>
        (List.range d1).flatMap (fun k => (List.range d2).flatMap (fun l =>
          [t.data.getD (((i * d1 + k) * d2 + l) * nc + j) 0])))))
  | _ => t

/-- gridnet_patches.py lines 79-94: the while loop of the chunked branch of
patch_predictions.  count advances by atonce_patch_limit each iteration;
each iteration classifies patch_list.narrow(0, count, min(limit, len-count)),
wrapping the call in cp.checkpoint exactly when some named parameter of the
patch classifier has requires_grad set; the chunk results are concatenated
in order (torch.cat on line 94 is fused into the recursion).  The while
loop itself has no structural bound, so the recursion is driven by explicit
fuel; running out of fuel yields none.  Alongside the predictions, the list
of performed _ppl invocations is recorded. -/
def GridNet.chunkLoop (patch_classifier : Patch → Pred)
    (has_grad_param : Bool) (atonce_patch_limit : Nat)
    (patch_list : List Patch) :
    Nat → Nat → Option (List Pred × List PPLCall)
  | 0, count =>
    if count < patch_list.length then none else some ([], [])
  | Nat.succ fuel, count =>
    if count < patch_list.length then
      let length := min atonce_patch_limit (patch_list.length - count)
      let tmp := (patch_list.drop count).take length
      let chunk :=
        if has_grad_param then
          cp_checkpoint (GridNet._ppl patch_classifier) tmp
            (some GridNet.dummy_tensor)
        else
          GridNet._ppl patch_classifier tmp (some GridNet.dummy_tensor)
      match chunk with
      | none => none
      | some c =>
        match GridNet.chunkLoop patch_classifier has_grad_param
            atonce_patch_limit patch_list fuel (count + atonce_patch_limit) with
        | none => none
        | some (rest, calls) =>
          some (c ++ rest,
            PPLCall.mk has_grad_param (some GridNet.dummy_tensor) :: calls)
    else some ([], [])

/-- gridnet_patches.py lines 71-99: patch_predictions, instrumented to also
return the list of _ppl invocations it performs.  cls_params is the list of
(name, requires_grad) pairs of patch_classifier.named_parameters(). -/
def GridNet.patch_predictionsFull (patch_classifier : Patch → Pred)
    (cls_params : List (String × Bool)) (patch_numel : Nat)
    (grid_shape : Nat × Nat) (n_classes : Nat)
    (atonce_patch_limit : Option Nat) (x : Tensor) :
    Option (Tensor × List PPLCall) :=
  let patch_list := toPatchList patch_numel x.data
  let r :=
    match atonce_patch_limit with
    | none =>
      match GridNet._ppl patch_classifier patch_list
          (some GridNet.dummy_tensor) with
      | none => none
      | some preds => some (preds, [PPLCall.mk false (some GridNet.dummy_tensor)])
    | some limit =>
      GridNet.chunkLoop patch_classifier
        (cls_params.any (fun pr => pr.2)) limit patch_list
        patch_list.length 0
  match r with
  | none => none
  | some (patch_pred_list, calls) =>
    let t1 := Tensor.mk [patch_list.length, n_classes] patch_pred_list.flatten
    let patch_pred_grid :=
      torch_reshape_neg1 [grid_shape.1, grid_shape.2, n_classes] t1
    some (torch_permute_0312 patch_pred_grid, calls)

/-- gridnet_patches.py lines 71-99: patch_predictions, returning only the
prediction tensor. -/
def GridNet.patch_predictions (patch_classifier : Patch → Pred)
    (cls_params : List (String × Bool)) (patch_numel : Nat)
    (grid_shape : Nat × Nat) (n_classes : Nat)
    (atonce_patch_limit : Option Nat) (x : Tensor) : Option Tensor :=
  (GridNet.patch_predictionsFull patch_classifier cls_params patch_numel
      grid_shape n_classes atonce_patch_limit x).map (fun r => r.1)

/-! ### Helper lemmas about the chunk loop -/

lemma take_min_length_right {α : Type} (xs : List α) (k : Nat) :
    xs.take (min k xs.length) = xs.take k := by
  rcases Nat.le_total k xs.length with h | h
  · rw [Nat.min_eq_left h]
  · rw [Nat.min_eq_right h, List.take_length, List.take_of_length_le h]

lemma ppl_some (f : Patch → Pred) (pl : List Patch) (d : TrackedTensor) :
    GridNet._ppl f pl (some d) = some (pl.map f) := rfl

lemma chunkLoop_fst_eq (f : Patch → Pred) (g : Bool) (limit : Nat)
    (pl : List Patch) :
    ∀ (fuel count : Nat), pl.length ≤ count + fuel * limit →
    ∃ calls, GridNet.chunkLoop f g limit pl fuel count
      = some (((pl.drop count).map f), calls) := by
  intro fuel
  induction fuel with
  | zero =>
    intro count hle
    refine ⟨[], ?_⟩
    simp only [Nat.zero_mul, Nat.add_zero] at hle
    simp [GridNet.chunkLoop, Nat.not_lt.mpr hle, List.drop_eq_nil_of_le hle]
  | succ fuel ih =>
    intro count hle
    by_cases h : count < pl.length
    · have h2 : pl.length ≤ count + limit + fuel * limit := by
        calc pl.length ≤ count + (fuel + 1) * limit := hle
          _ = count + limit + fuel * limit := by ring
      obtain ⟨calls, hrec⟩ := ih (count + limit) h2
      refine ⟨PPLCall.mk g (some GridNet.dummy_tensor) :: calls, ?_⟩
      have htmp : (pl.drop count).take (min limit (pl.length - count))
          = (pl.drop count).take limit := by
        rw [← List.length_drop count pl, take_min_length_right]
      have hsplit : ((pl.drop count).take limit).map f
          ++ (pl.drop (count + limit)).map f = (pl.drop count).map f := by
        rw [← List.drop_drop, ← List.map_append, List.take_append_drop]
      simp only [GridNet.chunkLoop, if_pos h, cp_checkpoint, ppl_some, ite_self]
      rw [htmp, hrec]
      simp [hsplit]
    · refine ⟨[], ?_⟩
      have hle2 : pl.length ≤ count := Nat.not_lt.mp h
      simp [GridNet.chunkLoop, h, List.drop_eq_nil_of_le hle2]

lemma chunkLoop_calls_eq (f : Patch → Pred) (g : Bool) (limit : Nat)
    (pl : List Patch) :
    ∀ (fuel count : Nat) (r : List Pred × List PPLCall),
    GridNet.chunkLoop f g limit pl fuel count = some r →
    ∀ c ∈ r.2, c = PPLCall.mk g (some GridNet.dummy_tensor) := by
  intro fuel
  induction fuel with
  | zero =>
    intro count r hr c hc
    by_cases h : count < pl.length
    · simp [GridNet.chunkLoop, h] at hr
    · simp only [GridNet.chunkLoop, if_neg h, Option.some.injEq] at hr
      subst hr
      simp at hc
  | succ fuel ih =>
    intro count r hr c hc
    by_cases h : count < pl.length
    · simp only [GridNet.chunkLoop, if_pos h, cp_checkpoint, ppl_some,
        ite_self] at hr
      cases hrec : GridNet.chunkLoop f g limit pl fuel (count + limit) with
      | none => rw [hrec] at hr; exact absurd hr (by simp)
      | some r2 =>
        obtain ⟨rest, calls⟩ := r2
        rw [hrec] at hr
        simp only [Option.some.injEq] at hr
        subst hr
        simp only [List.mem_cons] at hc
        rcases hc with hc | hc
        · exact hc
        · exact ih (count + limit) (rest, calls) hrec c hc
    · simp only [GridNet.chunkLoop, if_neg h, Option.some.injEq] at hr
      subst hr
      simp at hc

lemma chunkLoop_zero_limit_none (f : Patch → Pred) (g : Bool)
    (pl : List Patch) :
    ∀ (fuel count : Nat), count < pl.length →
    GridNet.chunkLoop f g 0 pl fuel count = none := by
  intro fuel
  induction fuel with
  | zero =>
    intro count h
    simp [GridNet.chunkLoop, h]
  | succ fuel ih =>
    intro count h
    simp only [GridNet.chunkLoop, if_pos h, cp_checkpoint, ppl_some, ite_self]
    rw [Nat.add_zero, ih count h]

/-! ### C1, C9, C5 -/

/-- C1: for any input tensor whose element count equals
batch * grid_h * grid_w * patch_numel and any atonce_patch_limit of at
least 1 (evenly dividing the patch count or not), patch_predictions with
that chunk limit returns exactly the prediction tensor that
patch_predictions with atonce_patch_limit = None returns on the same
input, and the unchunked result exists: the flat patch list is cut into
contiguous chunks of at most the limit (last chunk possibly smaller),
each chunk classified, and the chunk results concatenated in order. -/
theorem patch_predictions_chunked_eq_unchunked
    (f : Patch → Pred) (cls_params : List (String × Bool))
    (patch_numel gh gw n_classes b limit : Nat) (x : Tensor)
    (_hx : x.data.length = b * gh * gw * patch_numel)
    (hlim : 1 ≤ limit) :
    GridNet.patch_predictions f cls_params patch_numel (gh, gw) n_classes
        (some limit) x
      = GridNet.patch_predictions f cls_params patch_numel (gh, gw) n_classes
        none x ∧
    (GridNet.patch_predictions f cls_params patch_numel (gh, gw) n_classes
        none x).isSome := by
  obtain ⟨calls, hc⟩ := chunkLoop_fst_eq f (cls_params.any fun pr => pr.2)
    limit (toPatchList patch_numel x.data)
    (toPatchList patch_numel x.data).length 0
    (by rw [Nat.zero_add]; exact Nat.le_mul_of_pos_right _ hlim)
  rw [List.drop_zero] at hc
  constructor
  · simp only [GridNet.patch_predictions, GridNet.patch_predictionsFull]
    rw [hc]
    simp [GridNet._ppl]
  · simp [GridNet.patch_predictions, GridNet.patch_predictionsFull,
      GridNet._ppl]

/-- Witness for C1: 10 patches with chunk limit 4 (chunks of 4, 4, 2). -/
theorem patch_predictions_chunked_eq_unchunked_witness :
    GridNet.patch_predictions (fun p => p) [] 1 (2, 5) 1 (some 4)
        (Tensor.mk [1, 2, 5, 1, 1, 1] [3, 1, 4, 1, 5, 9, 2, 6, 5, 3])
      = GridNet.patch_predictions (fun p => p) [] 1 (2, 5) 1 none
        (Tensor.mk [1, 2, 5, 1, 1, 1] [3, 1, 4, 1, 5, 9, 2, 6, 5, 3]) ∧
    (GridNet.patch_predictions (fun p => p) [] 1 (2, 5) 1 none
        (Tensor.mk [1, 2, 5, 1, 1, 1] [3, 1, 4, 1, 5, 9, 2, 6, 5, 3])).isSome :=
  patch_predictions_chunked_eq_unchunked (fun p => p) [] 1 2 5 1 1 4
    (Tensor.mk [1, 2, 5, 1, 1, 1] [3, 1, 4, 1, 5, 9, 2, 6, 5, 3])
    (by decide) (by decide)

/-- C9: the chunking loop of patch_predictions terminates for every patch
list when atonce_patch_limit is at least 1 (fuel equal to the patch count
suffices, since each iteration advances the counter by the limit), and the
precondition is necessary: with atonce_patch_limit equal to 0 and a
non-empty patch list the counter never advances and no amount of fuel
makes the loop terminate. -/
theorem chunk_loop_termination (f : Patch → Pred) (g : Bool) :
    (∀ (limit : Nat) (pl : List Patch), 1 ≤ limit →
      (GridNet.chunkLoop f g limit pl pl.length 0).isSome) ∧
    (∀ (pl : List Patch) (fuel : Nat), pl ≠ [] →
      GridNet.chunkLoop f g 0 pl fuel 0 = none) := by
  constructor
  · intro limit pl hlim
    obtain ⟨calls, hc⟩ := chunkLoop_fst_eq f g limit pl pl.length 0
      (by rw [Nat.zero_add]; exact Nat.le_mul_of_pos_right _ hlim)
    rw [hc]
    rfl
  · intro pl fuel hne
    exact chunkLoop_zero_limit_none f g pl fuel 0 (List.length_pos.mpr hne)

/-- Witness for C9: a one-patch list terminates with limit 1 and diverges
with limit 0 at any fuel (here 5). -/
theorem chunk_loop_termination_witness :
    (GridNet.chunkLoop (fun p => p) false 1 [[1]] 1 0).isSome ∧
    GridNet.chunkLoop (fun p => p) false 0 [[1]] 5 0 = none :=
  ⟨(chunk_loop_termination (fun p => p) false).1 1 [[1]] (by decide),
   (chunk_loop_termination (fun p => p) false).2 [[1]] 5 (by decide)⟩

/-- C5: whenever GridNet._ppl is given a dummy argument, its assert
succeeds; in the chunked path of patch_predictions every recorded _ppl
invocation is wrapped in cp.checkpoint exactly when some named parameter
of the patch classifier has requires_grad set, and receives the dummy
tensor as its second argument; the unchunked path also passes the dummy
tensor; and the dummy tensor has requires_grad set. -/
theorem checkpoint_guard_and_dummy :
    (∀ (f : Patch → Pred) (pl : List Patch) (d : Option TrackedTensor),
      d.isSome → (GridNet._ppl f pl d).isSome) ∧
    (∀ (f : Patch → Pred) (cls_params : List (String × Bool))
      (patch_numel : Nat) (grid_shape : Nat × Nat) (n_classes limit : Nat)
      (x : Tensor) (r : Tensor × List PPLCall),
      GridNet.patch_predictionsFull f cls_params patch_numel grid_shape
          n_classes (some limit) x = some r →
      ∀ c ∈ r.2, c.checkpointed = cls_params.any (fun pr => pr.2) ∧
        c.dummy_arg = some GridNet.dummy_tensor) ∧
    (∀ (f : Patch → Pred) (cls_params : List (String × Bool))
      (patch_numel : Nat) (grid_shape : Nat × Nat) (n_classes : Nat)
      (x : Tensor) (r : Tensor × List PPLCall),
      GridNet.patch_predictionsFull f cls_params patch_numel grid_shape
          n_classes none x = some r →
      ∀ c ∈ r.2, c.dummy_arg = some GridNet.dummy_tensor) ∧
    GridNet.dummy_tensor.requires_grad = true := by
  refine ⟨?_, ?_, ?_, rfl⟩
  · intro f pl d hd
    simp [GridNet._ppl, hd]
  · intro f cls_params pk gs nc limit x r hr c hc
    simp only [GridNet.patch_predictionsFull] at hr
    cases heq : GridNet.chunkLoop f (cls_params.any fun pr => pr.2) limit
        (toPatchList pk x.data) (toPatchList pk x.data).length 0 with
    | none =>
      rw [heq] at hr
      exact absurd hr (by simp)
    | some r2 =>
      obtain ⟨preds, calls⟩ := r2
      rw [heq] at hr
      simp only [Option.some.injEq] at hr
      subst hr
      have hcall := chunkLoop_calls_eq f (cls_params.any fun pr => pr.2)
        limit (toPatchList pk x.data) (toPatchList pk x.data).length 0
        (preds, calls) heq c hc
      subst hcall
      exact ⟨rfl, rfl⟩
  · intro f cls_params pk gs nc x r hr c hc
    simp only [GridNet.patch_predictionsFull, ppl_some] at hr
    simp only [Option.some.injEq] at hr
    subst hr
    simp only [List.mem_singleton] at hc
    subst hc
    rfl

/-- Witness for C5: a concrete chunked run with one trainable named
parameter records a checkpointed call carrying the dummy tensor. -/
theorem checkpoint_guard_and_dummy_witness :
    (PPLCall.mk true (some GridNet.dummy_tensor)).checkpointed
        = List.any [(("w" : String), true)] (fun pr => pr.2) ∧
    (PPLCall.mk true (some GridNet.dummy_tensor)).dummy_arg
        = some GridNet.dummy_tensor :=
  checkpoint_guard_and_dummy.2.1 (fun p => p) [(("w" : String), true)]
    1 (1, 1) 1 1 (Tensor.mk [1, 1, 1, 1, 1, 1] [5])
    (Tensor.mk [1, 1, 1, 1] [5],
      [PPLCall.mk true (some GridNet.dummy_tensor)])
    rfl (PPLCall.mk true (some GridNet.dummy_tensor)) (by simp)

/-! ### C4 -/

lemma flatten_map_length (f : Patch → Pred) (nc : Nat)
    (hf : ∀ p, (f p).length = nc) :
    ∀ L : List Patch, ((L.map f).flatten).length = L.length * nc := by
  intro L
  induction L with
  | nil => simp
  | cons a L ih =>
    simp only [List.map_cons, List.flatten_cons, List.length_append, ih, hf,
      List.length_cons, Nat.succ_mul]
    exact Nat.add_comm _ _

lemma assembled_shape (pl : List Patch) (f : Patch → Pred)
    (gh gw nc b : Nat) (hf : ∀ p, (f p).length = nc)
    (hlen : pl.length = b * gh * gw) (hpos : 0 < gh * gw * nc) :
    (torch_permute_0312 (torch_reshape_neg1 [gh, gw, nc]
        (Tensor.mk [pl.length, nc] ((pl.map f).flatten)))).shape
      = [b, nc, gh, gw] := by
  have hb : ((pl.map f).flatten).length / List.prod [gh, gw, nc] = b := by
    rw [flatten_map_length f nc hf, hlen]
    have h1 : List.prod [gh, gw, nc] = gh * gw * nc := by
      simp [Nat.mul_assoc]
    have h2 : b * gh * gw * nc = b * (gh * gw * nc) := by ring
    rw [h1, h2]
    exact Nat.mul_div_cancel b hpos
  simp only [torch_reshape_neg1]
  rw [hb]
  simp [torch_permute_0312]

/-- C4: for every valid input of shape (batch, grid_h, grid_w, channels,
patch_h, patch_w) matching the declared patch and grid shapes,
patch_predictions (unchunked, or chunked with any positive limit) returns
a tensor of shape (batch, n_classes, grid_h, grid_w), obtained by
reshaping the flat prediction sequence to (batch, grid_h, grid_w,
n_classes) and permuting the class axis to position 1. -/
theorem patch_predictions_output_shape
    (f : Patch → Pred) (cls_params : List (String × Bool))
    (n_classes b gh gw c ph pw : Nat)
    (hf : ∀ p, (f p).length = n_classes)
    (hc : 1 ≤ c * ph * pw) (hgh : 1 ≤ gh) (hgw : 1 ≤ gw)
    (hnc : 1 ≤ n_classes) (x : Tensor)
    (hx : x.data.length = b * gh * gw * (c * ph * pw))
    (atonce : Option Nat) (hl : ∀ l, atonce = some l → 1 ≤ l) :
    (GridNet.patch_predictions f cls_params (c * ph * pw) (gh, gw)
        n_classes atonce x).map Tensor.shape
      = some [b, n_classes, gh, gw] := by
  have hpl_len : (toPatchList (c * ph * pw) x.data).length = b * gh * gw := by
    simp only [toPatchList, List.length_map, List.length_range]
    rw [hx]
    exact Nat.mul_div_cancel _ hc
  have hpos : 0 < gh * gw * n_classes :=
    Nat.mul_pos (Nat.mul_pos hgh hgw) hnc
  have hval : GridNet.patch_predictions f cls_params (c * ph * pw) (gh, gw)
      n_classes atonce x
      = some (torch_permute_0312 (torch_reshape_neg1 [gh, gw, n_classes]
          (Tensor.mk [(toPatchList (c * ph * pw) x.data).length, n_classes]
            (((toPatchList (c * ph * pw) x.data).map f).flatten)))) := by
    cases atonce with
    | none =>
      simp [GridNet.patch_predictions, GridNet.patch_predictionsFull,
        GridNet._ppl]
    | some limit =>
      obtain ⟨calls, hcl⟩ := chunkLoop_fst_eq f (cls_params.any fun pr => pr.2)
        limit (toPatchList (c * ph * pw) x.data)
        (toPatchList (c * ph * pw) x.data).length 0
        (by rw [Nat.zero_add]
            exact Nat.le_mul_of_pos_right _ (hl limit rfl))
      rw [List.drop_zero] at hcl
      simp only [GridNet.patch_predictions, GridNet.patch_predictionsFull]
      rw [hcl]
      simp
  rw [hval, Option.map_some']
  rw [assembled_shape (toPatchList (c * ph * pw) x.data) f gh gw
    n_classes b hf hpl_len hpos]

/-- Witness for C4: batch 1, grid 1 x 2, patches of one channel and one
pixel, two classes, unchunked. -/
theorem patch_predictions_output_shape_witness :
    (GridNet.patch_predictions (fun p => [p.headD 0, 0]) [] (1 * 1 * 1)
        (1, 2) 2 none (Tensor.mk [1, 1, 2, 1, 1, 1] [3, 4])).map Tensor.shape
      = some [1, 2, 1, 2] :=
  patch_predictions_output_shape (fun p => [p.headD 0, 0]) [] 2 1 1 2 1 1 1
    (fun p => rfl) (by decide) (by decide) (by decide) (by decide)
    (Tensor.mk [1, 1, 2, 1, 1, 1] [3, 4]) (by decide) none
    (fun l h => by simp at h)

/-! ### C8 -/

lemma foldl_max_neg : ∀ (t : List ℚ) (h : ℚ), h < 0 → (∀ v ∈ t, v < 0) →
    t.foldl max h < 0 := by
  intro t
  induction t with
  | nil =>
    intro h hh _
    simpa using hh
  | cons a t ih =>
    intro h hh hv
    simp only [List.foldl_cons]
    exact ih (max h a) (max_lt hh (hv a (by simp)))
      (fun u hu => hv u (by simp [hu]))

/-- C8: foreground_classifier returns the constant background row exactly
when the maximum element of the patch is 0, and otherwise returns the
patch classifier output; a patch such as [-1, 0], which is not all-zero
but has maximum 0, is short-circuited as background, while a patch with
all elements strictly negative is sent to the classifier. -/
theorem foreground_classifier_spec
    (f : Patch → Pred) (n_classes : Nat) (x : Patch) (hx : x ≠ []) :
    (torch_max x = 0 →
      GridNet.foreground_classifier f n_classes x
        = (GridNet.bg n_classes).data) ∧
    (torch_max x ≠ 0 →
      GridNet.foreground_classifier f n_classes x = f x) ∧
    GridNet.foreground_classifier f n_classes [-1, 0]
      = (GridNet.bg n_classes).data ∧
    ¬ (∀ v ∈ ([-1, 0] : Patch), v = 0) ∧
    ((∀ v ∈ x, v < 0) → GridNet.foreground_classifier f n_classes x = f x) := by
  refine ⟨?_, ?_, ?_, ?_, ?_⟩
  · intro h
    simp [GridNet.foreground_classifier, h]
  · intro h
    simp [GridNet.foreground_classifier, h]
  · have h : torch_max [-1, 0] = (0 : ℚ) := by decide
    simp [GridNet.foreground_classifier, h]
  · intro h
    have := h (-1) (by simp)
    norm_num at this
  · intro hneg
    cases x with
    | nil => exact absurd rfl hx
    | cons v vs =>
      have hlt : torch_max (v :: vs) < 0 := by
        simp only [torch_max]
        exact foldl_max_neg vs v (hneg v (by simp))
          (fun u hu => hneg u (by simp [hu]))
      simp [GridNet.foreground_classifier, ne_of_lt hlt]

/-- Witness for C8: the all-negative patch [-2] goes to the classifier. -/
theorem foreground_classifier_spec_witness :
    GridNet.foreground_classifier (fun _ => [1]) 1 [-2] = [(1 : ℚ)] :=
  (foreground_classifier_spec (fun _ => [1]) 1 [-2]
    (by decide)).2.2.2.2 (by decide)

/-! ### C6 -/

/-- One layer of a corrector stack, as constructed by the source. -/
inductive CLayer where
  | hexConv2d (in_channels out_channels kernel_size stride : Nat) (bias : Bool)
  | batchNorm2d (num_features : Nat)
  | relu
deriving DecidableEq

/-- gridnet_patches.py lines 132-152: the layer list built by
GridNetHex._init_corrector(n_classes, use_bn), in order. -/
def GridNetHex._init_corrector (n_classes : Nat) (use_bn : Bool) :
    List CLayer :=
  [CLayer.hexConv2d n_classes 32 1 1 true,
   CLayer.hexConv2d 32 32 1 1 true] ++
  (if use_bn then [CLayer.batchNorm2d n_classes] else []) ++
  [CLayer.relu] ++
  [CLayer.hexConv2d 32 32 1 1 true,
   CLayer.hexConv2d 32 32 1 1 true] ++
  (if use_bn then [CLayer.batchNorm2d n_classes] else []) ++
  [CLayer.relu] ++
  [CLayer.hexConv2d 32 n_classes 1 1 true]

/-- Whether a layer can run on an input with the given channel count:
a convolution requires its declared in_channels, a batch-norm layer its
declared num_features; ReLU accepts anything. -/
def layerAccepts : CLayer → Nat → Bool
  | CLayer.hexConv2d i _ _ _ _, ch => i = ch
  | CLayer.batchNorm2d k, ch => k = ch
  | CLayer.relu, _ => true

/-- Channel count produced by a layer from the given input channels. -/
def layerOut : CLayer → Nat → Nat
  | CLayer.hexConv2d _ o _ _ _, _ => o
  | CLayer.batchNorm2d _, ch => ch
  | CLayer.relu, ch => ch

/-- A stack is well formed on an input channel count when every layer
accepts the channel count handed to it by the previous layers. -/
def stackWellFormed : List CLayer → Nat → Bool
  | [], _ => true
  | l :: ls, ch => layerAccepts l ch && stackWellFormed ls (layerOut l ch)

/-- Channel count at the output of a stack. -/
def stackOut : List CLayer → Nat → Nat
  | [], ch => ch
  | l :: ls, ch => stackOut ls (layerOut l ch)

/-- C6 (code bug): with n_classes = 2 and use_bn set, the hexagonal
corrector stack is NOT well formed: its batch-norm layer at index 2 is
built with 2 features although the two preceding 1 x 1 hex convolutions
hand it 32 channels.  Without batch-norm the conv topology is coherent
(widening to 32 and narrowing back to n_classes), and with n_classes = 32
the batch-norm channel counts coincide by accident. -/
theorem gridNetHex_corrector_bn_channel_mismatch :
    stackWellFormed (GridNetHex._init_corrector 2 true) 2 = false ∧
    (GridNetHex._init_corrector 2 true).get? 2
      = some (CLayer.batchNorm2d 2) ∧
    stackOut ((GridNetHex._init_corrector 2 true).take 2) 2 = 32 ∧
    stackWellFormed (GridNetHex._init_corrector 2 false) 2 = true ∧
    stackOut (GridNetHex._init_corrector 2 false) 2 = 2 ∧
    stackWellFormed (GridNetHex._init_corrector 32 true) 32 = true := by
  decide

/-! ### C2 -/

/-- The observable actions of one train-phase batch iteration
(gridnet_patches.py lines 243-252). -/
inductive TrainEvent where
  | backward
  | optStep
  | optZero
  | fOptStep
  | fOptZero
deriving DecidableEq

/-- gridnet_patches.py lines 244-252: in the train phase every batch is
backpropagated, and when batch_ind % accum_iters == 0 the primary optimizer
steps and zeroes, followed by the secondary optimizer when present. -/
def batchTrainEvents (accum_iters : Nat) (has_f_opt : Bool)
    (batch_ind : Nat) : List TrainEvent :=
  TrainEvent.backward ::
    (if batch_ind % accum_iters = 0 then
      [TrainEvent.optStep, TrainEvent.optZero] ++
        (if has_f_opt then [TrainEvent.fOptStep, TrainEvent.fOptZero] else [])
    else [])

/-- The batch indices of a train phase of n batches on which the primary
optimizer steps. -/
def optStepBatches (accum_iters : Nat) (has_f_opt : Bool) (n : Nat) :
    List Nat :=
  (List.range n).filter
    (fun i => decide (TrainEvent.optStep ∈ batchTrainEvents accum_iters
      has_f_opt i))

lemma optStep_mem_iff (a : Nat) (hF : Bool) (i : Nat) :
    TrainEvent.optStep ∈ batchTrainEvents a hF i ↔ i % a = 0 := by
  by_cases h : i % a = 0 <;> cases hF <;> simp [batchTrainEvents, h]

/-- C2: in the train phase, for every accum_iters of at least 1, the
primary optimizer (and the secondary optimizer when present) steps and
zeroes exactly on the batches whose index is a multiple of accum_iters
and never on the batches in between, while every batch is backpropagated;
hence exactly accum_iters batches are backpropagated between two
consecutive optimizer steps. -/
theorem train_gradient_accumulation_schedule
    (a : Nat) (has_f_opt : Bool) (n : Nat) (_ha : 1 ≤ a) :
    (∀ i, i ∈ optStepBatches a has_f_opt n ↔ i < n ∧ i % a = 0) ∧
    (∀ i, TrainEvent.backward ∈ batchTrainEvents a has_f_opt i) ∧
    (∀ i, TrainEvent.optZero ∈ batchTrainEvents a has_f_opt i ↔
      TrainEvent.optStep ∈ batchTrainEvents a has_f_opt i) ∧
    (has_f_opt = true → ∀ i,
      (TrainEvent.fOptStep ∈ batchTrainEvents a has_f_opt i ↔
        TrainEvent.optStep ∈ batchTrainEvents a has_f_opt i)) ∧
    (has_f_opt = false → ∀ i,
      TrainEvent.fOptStep ∉ batchTrainEvents a has_f_opt i) ∧
    (∀ i, i ∈ optStepBatches a has_f_opt n → i + a < n →
      i + a ∈ optStepBatches a has_f_opt n) ∧
    (∀ i j, i ∈ optStepBatches a has_f_opt n → i < j → j < i + a →
      j ∉ optStepBatches a has_f_opt n) := by
  have hmem : ∀ i, i ∈ optStepBatches a has_f_opt n ↔ i < n ∧ i % a = 0 := by
    intro i
    simp [optStepBatches, List.mem_filter, List.mem_range, optStep_mem_iff]
  refine ⟨hmem, ?_, ?_, ?_, ?_, ?_, ?_⟩
  · intro i
    simp [batchTrainEvents]
  · intro i
    by_cases h : i % a = 0 <;> cases has_f_opt <;> simp [batchTrainEvents, h]
  · intro hF i
    subst hF
    by_cases h : i % a = 0 <;> simp [batchTrainEvents, h]
  · intro hF i
    subst hF
    by_cases h : i % a = 0 <;> simp [batchTrainEvents, h]
  · intro i hi hilt
    rw [hmem] at hi ⊢
    exact ⟨hilt, by rw [Nat.add_mod_right, hi.2]⟩
  · intro i j hi hij hja hj
    rw [hmem] at hi hj
    obtain ⟨k, hk⟩ := Nat.dvd_of_mod_eq_zero hi.2
    have hr : j % a = j - i := by
      calc j % a = (i + (j - i)) % a := by
            rw [Nat.add_sub_cancel' (le_of_lt hij)]
        _ = (a * k + (j - i)) % a := by rw [← hk]
        _ = (j - i) % a := Nat.mul_add_mod a k (j - i)
        _ = j - i := Nat.mod_eq_of_lt (by omega)
    rw [hj.2] at hr
    omega

/-- Witness for C2: with accum_iters = 2 over 5 batches, batch 4 is a
step batch. -/
theorem train_gradient_accumulation_schedule_witness :
    4 ∈ optStepBatches 2 true 5 ↔ 4 < 5 ∧ 4 % 2 = 0 :=
  (train_gradient_accumulation_schedule 2 true 5 (by decide)).1 4

/-! ### C3 -/

/-- gridnet_patches.py line 237: torch.max(outputs, 1) on one row of the
flattened outputs, i.e. the index of the first maximal score. -/
def torch_argmax_row (row : Pred) : Nat :=
  (row.foldl
    (fun (st : Nat × Nat × ℚ) v =>
      if st.2.2 < v then (st.1 + 1, st.1, v) else (st.1 + 1, st.2.1, st.2.2))
    (0, 0, row.headD 0)).2.1

/-- gridnet_patches.py line 232: outputs = outputs[labels > 0], applied to
the flattened per-position score rows. -/
def maskedOutputs (outputs : List Pred) (labels : List ℤ) : List Pred :=
  ((outputs.zip labels).filter (fun p => 0 < p.2)).map (fun p => p.1)

/-- gridnet_patches.py line 233: labels = labels[labels > 0]. -/
def maskedLabelsPre (labels : List ℤ) : List ℤ :=
  labels.filter (fun l => 0 < l)

/-- gridnet_patches.py line 234: labels -= 1 after masking. -/
def maskedLabels (labels : List ℤ) : List ℤ :=
  (maskedLabelsPre labels).map (fun l => l - 1)

/-- gridnet_patches.py line 256: the number of masked positions whose
arg-max prediction equals the masked, decremented label. -/
def running_corrects_contrib (outputs : List Pred) (labels : List ℤ) : Nat :=
  ((maskedOutputs outputs labels).zip (maskedLabels labels)).countP
    (fun p => decide ((torch_argmax_row p.1 : ℤ) = p.2))

/-- gridnet_patches.py line 257: the number of foreground positions. -/
def running_foreground_contrib (labels : List ℤ) : Nat :=
  (maskedLabels labels).length

/-- C3: after masking by label > 0, every retained label is at least 1
before the decrement and at least 0 after it, and a position whose label
is 0 contributes neither to the criterion input (hence not to the loss)
nor to the correct-count or foreground-count statistics. -/
theorem background_masking_law :
    (∀ labels : List ℤ, ∀ l ∈ maskedLabelsPre labels, 1 ≤ l) ∧
    (∀ labels : List ℤ, ∀ l ∈ maskedLabels labels, 0 ≤ l) ∧
    (∀ (os1 os2 : List Pred) (ls1 ls2 : List ℤ) (o : Pred),
      os1.length = ls1.length →
      maskedOutputs (os1 ++ o :: os2) (ls1 ++ 0 :: ls2)
        = maskedOutputs (os1 ++ os2) (ls1 ++ ls2) ∧
      maskedLabels (ls1 ++ 0 :: ls2) = maskedLabels (ls1 ++ ls2) ∧
      (∀ criterion : List Pred → List ℤ → ℚ,
        criterion (maskedOutputs (os1 ++ o :: os2) (ls1 ++ 0 :: ls2))
            (maskedLabels (ls1 ++ 0 :: ls2))
          = criterion (maskedOutputs (os1 ++ os2) (ls1 ++ ls2))
            (maskedLabels (ls1 ++ ls2))) ∧
      running_corrects_contrib (os1 ++ o :: os2) (ls1 ++ 0 :: ls2)
        = running_corrects_contrib (os1 ++ os2) (ls1 ++ ls2) ∧
      running_foreground_contrib (ls1 ++ 0 :: ls2)
        = running_foreground_contrib (ls1 ++ ls2)) := by
  refine ⟨?_, ?_, ?_⟩
  · intro labels l hl
    simp only [maskedLabelsPre, List.mem_filter, decide_eq_true_eq] at hl
    omega
  · intro labels l hl
    simp only [maskedLabels, maskedLabelsPre, List.mem_map, List.mem_filter,
      decide_eq_true_eq] at hl
    obtain ⟨l0, ⟨_, h0⟩, rfl⟩ := hl
    omega
  · intro os1 os2 ls1 ls2 o hlen
    have hO : maskedOutputs (os1 ++ o :: os2) (ls1 ++ 0 :: ls2)
        = maskedOutputs (os1 ++ os2) (ls1 ++ ls2) := by
      simp [maskedOutputs, List.zip_append hlen, List.filter_append]
    have hL : maskedLabels (ls1 ++ 0 :: ls2) = maskedLabels (ls1 ++ ls2) := by
      simp [maskedLabels, maskedLabelsPre, List.filter_append]
    refine ⟨hO, hL, ?_, ?_, ?_⟩
    · intro criterion
      rw [hO, hL]
    · simp only [running_corrects_contrib, hO, hL]
    · simp only [running_foreground_contrib, hL]

/-- Witness for C3: inserting a zero-labelled position between two
foreground positions changes nothing that feeds the loss or statistics. -/
theorem background_masking_law_witness :
    maskedOutputs ([[1, 2]] ++ [5, 5] :: [[3, 0]]) ([1] ++ 0 :: [2])
      = maskedOutputs ([[1, 2]] ++ [[3, 0]]) ([1] ++ [2]) ∧
    maskedLabels ([1] ++ 0 :: [2]) = maskedLabels ([1] ++ [2]) ∧
    running_corrects_contrib ([[1, 2]] ++ [5, 5] :: [[3, 0]])
        ([1] ++ 0 :: [2])
      = running_corrects_contrib ([[1, 2]] ++ [[3, 0]]) ([1] ++ [2]) ∧
    running_foreground_contrib ([1] ++ 0 :: [2])
      = running_foreground_contrib ([1] ++ [2]) :=
  have h := background_masking_law.2.2 [[1, 2]] [[3, 0]] [1] [2] [5, 5] rfl
  ⟨h.1, h.2.1, h.2.2.2.1, h.2.2.2.2⟩

/-! ### C7 and C10 -/

/-- Index of the last occurrence of a character in a list, if any. -/
def rfindIdx (c : Char) (l : List Char) : Option Nat :=
  (l.foldl
    (fun (st : Nat × Option Nat) ch =>
      (st.1 + 1, if ch = c then some st.1 else st.2))
    (0, none)).2

/-- os.path.splitext: split off the extension at the last dot of the final
path component, treating leading dots of the component as part of the
root (the CPython genericpath._splitext algorithm with sep = slash). -/
def splitext (p : String) : String × String :=
  let l := p.toList
  let sepIndex : Int :=
    match rfindIdx ('/') l with
    | some i => (i : Int)
    | none => -1
  let dotIndex : Int :=
    match rfindIdx ('.') l with
    | some i => (i : Int)
    | none => -1
  if sepIndex < dotIndex then
    let start := (sepIndex + 1).toNat
    let d := dotIndex.toNat
    if (List.range (d - start)).any
        (fun k => ! (l.getD (start + k) ('.') == ('.'))) then
      (String.mk (l.take d), String.mk (l.drop d))
    else (p, "")
  else (p, "")

/-- gridnet_patches.py lines 281 and 283: the optimizer state path,
os.path.splitext(outfile)[0] + ".opt". -/
def optOutPath (outfile : String) : String :=
  (splitext outfile).1 ++ ".opt"

/-- The externally observable data of one epoch of training, as seen at
the end of its validation phase: the model state dict, the two optimizer
state dicts, and the validation accuracy.  State dicts are opaque data. -/
structure EpochData where
  wts : List ℚ
  g_opt_state : List ℚ
  f_opt_state : List ℚ
  acc : ℚ
deriving DecidableEq

/-- One torch.save performed by train_model (gridnet_patches.py lines
276-283): either the model state dict to the output path, the combined
optimizer record keyed g_opt / f_opt, or the bare primary optimizer
state. -/
inductive SaveEvent where
  | weights (path : String) (wts : List ℚ)
  | optCombined (path : String) (g_opt f_opt : List ℚ)
  | optSingle (path : String) (g_opt : List ℚ)
deriving DecidableEq

/-- The mutable checkpoint state of train_model: best accuracy so far,
the in-memory deep copy of the best weights, the file writes performed so
far (in order), and the validation accuracy history. -/
structure TrainState where
  best_acc : ℚ
  best_model_wts : List ℚ
  saves : List SaveEvent
  val_acc_history : List ℚ
deriving DecidableEq

/-- gridnet_patches.py lines 272-285: the end of a validation phase.
When epoch_acc > best_acc, best_acc and the deep-copied best weights are
updated and, when an output file is given, the model weights are saved to
it and the optimizer state to the same path with its extension replaced
by ".opt" (a combined record when a second optimizer is present, the bare
primary state otherwise).  The accuracy is always appended to the
history. -/
def valEpochEnd (outfile : Option String) (has_f_opt : Bool)
    (e : EpochData) (st : TrainState) : TrainState :=
  if st.best_acc < e.acc then
    TrainState.mk e.acc e.wts
      (st.saves ++
        (match outfile with
        | none => []
        | some p =>
          SaveEvent.weights p e.wts ::
            (if has_f_opt then
              [SaveEvent.optCombined (optOutPath p) e.g_opt_state
                e.f_opt_state]
            else
              [SaveEvent.optSingle (optOutPath p) e.g_opt_state])))
      (st.val_acc_history ++ [e.acc])
  else
    TrainState.mk st.best_acc st.best_model_wts st.saves
      (st.val_acc_history ++ [e.acc])

/-- gridnet_patches.py lines 175-295: train_model, at the epoch
granularity.  best_model_wts starts as a deep copy of the incoming model
weights (line 182) with best_acc = 0.0 (line 183); each epoch ends its
validation phase with valEpochEnd; finally the best weights are loaded
back into the model (line 294) and returned with the accuracy history
(line 295).  The result is (returned model weights, val_acc_history,
file writes performed). -/
def train_model (outfile : Option String) (has_f_opt : Bool)
    (init_wts : List ℚ) (epochs : List EpochData) :
    List ℚ × List ℚ × List SaveEvent :=
  let final := epochs.foldl
    (fun st e => valEpochEnd outfile has_f_opt e st)
    (TrainState.mk 0 init_wts [] [])
  (final.best_model_wts, final.val_acc_history, final.saves)

/-- C7: at a validation epoch end with an output path, files are written
if and only if the epoch accuracy strictly exceeds the best accuracy so
far; in that case the writes are the model weights to the output path
followed by the optimizer state to the path with extension replaced by
".opt" (combined record keyed g_opt / f_opt when a second optimizer is
present, bare primary state otherwise), and the in-memory best-weights
copy is updated; otherwise only the history changes.  Moreover best_acc
is the running maximum of the validation accuracies. -/
theorem val_epoch_checkpoint_persistence (p : String) (hF : Bool)
    (e : EpochData) (st : TrainState) :
    ((valEpochEnd (some p) hF e st).saves ≠ st.saves ↔
      st.best_acc < e.acc) ∧
    (st.best_acc < e.acc →
      (valEpochEnd (some p) hF e st).saves
        = st.saves ++ SaveEvent.weights p e.wts ::
            (if hF then
              [SaveEvent.optCombined ((splitext p).1 ++ ".opt")
                e.g_opt_state e.f_opt_state]
            else
              [SaveEvent.optSingle ((splitext p).1 ++ ".opt")
                e.g_opt_state]) ∧
      (valEpochEnd (some p) hF e st).best_model_wts = e.wts ∧
      (valEpochEnd (some p) hF e st).best_acc = e.acc) ∧
    (¬ st.best_acc < e.acc →
      valEpochEnd (some p) hF e st
        = TrainState.mk st.best_acc st.best_model_wts st.saves
            (st.val_acc_history ++ [e.acc])) ∧
    (∀ (o : Option String) (epochs : List EpochData) (st0 : TrainState),
      (epochs.foldl (fun s e2 => valEpochEnd o hF e2 s) st0).best_acc
        = epochs.foldl (fun bacc e2 => max bacc e2.acc) st0.best_acc) := by
  have hsave : st.best_acc < e.acc →
      (valEpochEnd (some p) hF e st).saves
        = st.saves ++ SaveEvent.weights p e.wts ::
            (if hF then
              [SaveEvent.optCombined ((splitext p).1 ++ ".opt")
                e.g_opt_state e.f_opt_state]
            else
              [SaveEvent.optSingle ((splitext p).1 ++ ".opt")
                e.g_opt_state]) := by
    intro hlt
    simp [valEpochEnd, hlt, optOutPath]
  refine ⟨⟨?_, ?_⟩, fun hlt => ⟨hsave hlt, ?_, ?_⟩, ?_, ?_⟩
  · intro hne
    by_contra hnlt
    exact hne (by simp [valEpochEnd, hnlt])
  · intro hlt heq
    rw [hsave hlt] at heq
    have hlen := congrArg List.length heq
    cases hF <;> simp [List.length_append] at hlen
  · simp [valEpochEnd, hlt]
  · simp [valEpochEnd, hlt]
  · intro hnlt
    simp [valEpochEnd, hnlt]
  · intro o epochs
    induction epochs with
    | nil => intro st0; simp
    | cons e2 es ih =>
      intro st0
      simp only [List.foldl_cons]
      rw [ih (valEpochEnd o hF e2 st0)]
      have hstep : (valEpochEnd o hF e2 st0).best_acc
          = max st0.best_acc e2.acc := by
        by_cases hlt : st0.best_acc < e2.acc
        · simp [valEpochEnd, hlt, max_eq_right (le_of_lt hlt)]
        · simp [valEpochEnd, hlt, max_eq_left (not_lt.mp hlt)]
      rw [hstep]

/-- Witness for C7: an improving epoch writes the weights file and the
bare optimizer state file with the extension replaced by ".opt". -/
theorem val_epoch_checkpoint_persistence_witness :
    (valEpochEnd (some "best.pth") false (EpochData.mk [1] [2] [3] 1)
        (TrainState.mk 0 [9] [] [])).saves
      = [] ++ SaveEvent.weights "best.pth" [1] ::
          [SaveEvent.optSingle ((splitext "best.pth").1 ++ ".opt") [2]] ∧
    (valEpochEnd (some "best.pth") false (EpochData.mk [1] [2] [3] 1)
        (TrainState.mk 0 [9] [] [])).best_model_wts = [1] ∧
    (valEpochEnd (some "best.pth") false (EpochData.mk [1] [2] [3] 1)
        (TrainState.mk 0 [9] [] [])).best_acc = 1 :=
  ((val_epoch_checkpoint_persistence "best.pth" false
    (EpochData.mk [1] [2] [3] 1) (TrainState.mk 0 [9] [] [])).2.1
    (by norm_num))

lemma valEpoch_fold_no_improvement (o : Option String) (hF : Bool) :
    ∀ (epochs : List EpochData) (st : TrainState),
    (∀ e ∈ epochs, e.acc ≤ 0) → st.best_acc = 0 →
    epochs.foldl (fun s e => valEpochEnd o hF e s) st
      = TrainState.mk st.best_acc st.best_model_wts st.saves
          (st.val_acc_history ++ epochs.map (fun e => e.acc)) := by
  intro epochs
  induction epochs with
  | nil =>
    intro st h h0
    simp
  | cons e es ih =>
    intro st h h0
    simp only [List.foldl_cons, List.map_cons]
    have hnlt : ¬ st.best_acc < e.acc := by
      rw [h0]
      exact not_lt.mpr (h e (by simp))
    have hstep : valEpochEnd o hF e st
        = TrainState.mk st.best_acc st.best_model_wts st.saves
            (st.val_acc_history ++ [e.acc]) := by
      simp [valEpochEnd, hnlt]
    rw [hstep, ih _ (fun e2 he2 => h e2 (by simp [he2])) (by simp [h0])]
    simp

/-- C10: when no validation epoch reaches an accuracy strictly above 0.0,
train_model returns the pre-training weights snapshot (all training
updates discarded), still reports the full accuracy history, and writes
no weight or optimizer file, even when an output path is supplied. -/
theorem train_model_no_improvement_restores_init (outfile : Option String)
    (hF : Bool) (init_wts : List ℚ) (epochs : List EpochData)
    (h : ∀ e ∈ epochs, e.acc ≤ 0) :
    train_model outfile hF init_wts epochs
      = (init_wts, epochs.map (fun e => e.acc), []) := by
  simp only [train_model]
  rw [valEpoch_fold_no_improvement outfile hF epochs
    (TrainState.mk 0 init_wts [] []) h rfl]
  simp

/-- Witness for C10: two zero-accuracy epochs with an output path
supplied return the initial weights and write nothing. -/
theorem train_model_no_improvement_restores_init_witness :
    train_model (some "m.pt") false [7]
        [EpochData.mk [1] [2] [3] 0, EpochData.mk [4] [5] [6] 0]
      = ([7], [0, 0], []) :=
  train_model_no_improvement_restores_init (some "m.pt") false [7]
    [EpochData.mk [1] [2] [3] 0, EpochData.mk [4] [5] [6] 0] (by decide)
